import Mathlib

/-!
Formal model of the resilient request gateway of a practice-exam web backend:
sliding-window rate limiting, HTTPS redirection, a retrying client around the
generation provider, sanitisation of free-form generative output, unified error
envelopes, and cleanup of ephemeral audio artifacts.  Each definition mirrors
one function of the Python source (file and function named in its doc comment);
timestamps are modelled as integers and the filesystem as explicit entry lists.
-/

namespace RRG

/-! ## Sliding-window rate limiter (backend/middleware/rate_limiter.py) -/

/-- Window size in seconds, `self.window_size = 60` in `RateLimitMiddleware`. -/
def windowSize : Int := 60

/-- Paths exempt from rate limiting, first branch of `RateLimitMiddleware.dispatch`. -/
def bypassPaths : List String := ["/", "/health", "/docs", "/openapi.json"]

/-- Python `_clean_old_requests`: keep only the timestamps strictly newer than
`current_time - window_size`. -/
def clean_old_requests (hist : List Int) (t : Int) : List Int :=
  hist.filter (fun ts => decide (t - windowSize < ts))

/-- Python `_is_rate_limited`: evict old timestamps, then report whether the
count reached capacity together with `max(0, capacity - count)`. -/
def is_rate_limited (capacity : Nat) (hist : List Int) (t : Int) : Bool × Int :=
  let cleaned := clean_old_requests hist t
  (decide (capacity ≤ cleaned.length), max 0 ((capacity : Int) - cleaned.length))

/-- Rate-limit response headers; `retryAfter` is present only on a rejection. -/
structure RateHeaders where
  retryAfter : Option Int
  limit : Int
  remaining : Int
  reset : Int
  deriving DecidableEq

/-- Outcome of one pass through the rate limiter for a single request. -/
inductive RateOutcome where
  | bypass : RateOutcome
  | reject (status : Nat) (headers : RateHeaders) : RateOutcome
  | allow (headers : RateHeaders) : RateOutcome
  deriving DecidableEq

/-- Per-identity timestamp store, `self.request_history` (a defaultdict of lists). -/
def RateStore : Type := String → List Int

/-- Empty store: every identity has an empty history. -/
def emptyStore : RateStore := fun _ => []

/-- Python `RateLimitMiddleware.dispatch` for one request of identity `user` on
`path` at time `t`: bypass the fixed paths; otherwise evict old timestamps
(this mutation persists on both branches), reject with 429 and the rate-limit
headers when the cleaned count reached capacity, else record `t` and allow with
the decremented remaining budget in the headers. -/
def rate_limit_dispatch (capacity : Nat) (store : RateStore) (path user : String)
    (t : Int) : RateOutcome × RateStore :=
  if path ∈ bypassPaths then (.bypass, store)
  else
    let cleaned := clean_old_requests (store user) t
    if capacity ≤ cleaned.length then
      (.reject 429
        { retryAfter := some windowSize, limit := (capacity : Int), remaining := 0,
          reset := t + windowSize },
       fun u => if u = user then cleaned else store u)
    else
      (.allow
        { retryAfter := none, limit := (capacity : Int),
          remaining := max 0 ((capacity : Int) - cleaned.length) - 1,
          reset := t + windowSize },
       fun u => if u = user then cleaned ++ [t] else store u)

/-- Whether a dispatch outcome admitted the request. -/
def isAllowed : RateOutcome → Bool
  | .allow _ => true
  | _ => false

/-- Sequential run of the middleware: process the listed request times in order
for one identity, collecting each request's admission flag. -/
def runRequests (capacity : Nat) (path user : String) :
    RateStore → List Int → List Bool × RateStore
  | store, [] => ([], store)
  | store, t :: ts =>
    let step := rate_limit_dispatch capacity store path user t
    let rest := runRequests capacity path user step.2 ts
    (isAllowed step.1 :: rest.1, rest.2)

/-! ## HTTPS redirect middleware (backend/middleware/https_redirect.py) -/

/-- Request URL parts the middleware inspects: scheme, hostname and the rest. -/
structure Url where
  scheme : String
  hostname : String
  rest : String
  deriving DecidableEq

/-- Inbound request as seen by `HTTPSRedirectMiddleware`. -/
structure HttpsRequest where
  url : Url
  xForwardedProto : Option String
  deriving DecidableEq

/-- Outcome of the HTTPS middleware: pass the request on, or redirect. -/
inductive HttpsOutcome where
  | passThrough : HttpsOutcome
  | redirect (status : Nat) (location : Url) : HttpsOutcome
  deriving DecidableEq

/-- Development hosts for which HTTPS enforcement is skipped. -/
def devHosts : List String := ["localhost", "127.0.0.1"]

/-- Python `HTTPSRedirectMiddleware.dispatch`: `environment` models the
`ENVIRONMENT` variable (default `"development"`).  Development environments and
loopback hosts pass through; otherwise a request that is neither on the https
scheme nor carries `X-Forwarded-Proto: https` receives a 301 redirect to the
same URL with the scheme swapped to https. -/
def https_dispatch (environment : Option String) (req : HttpsRequest) : HttpsOutcome :=
  if environment.getD "development" = "development" ∨ req.url.hostname ∈ devHosts then
    .passThrough
  else if req.url.scheme ≠ "https" ∧ req.xForwardedProto.getD "" ≠ "https" then
    .redirect 301 { req.url with scheme := "https" }
  else
    .passThrough

/-! ## Audio artifact cleanup (backend/utils/audio_cleanup.py) -/

/-- Kind of a filesystem entry. -/
inductive FsKind where
  | file : FsKind
  | dir : FsKind
  deriving DecidableEq

/-- Filesystem entry: a path, its kind, and whether unlinking it fails with a
permission or I/O error (`locked`). -/
structure FsEntry where
  path : String
  kind : FsKind
  locked : Bool
  deriving DecidableEq

/-- Python `cleanup_audio_file`: empty path is refused; an absent path is
success (already gone); a non-regular-file entry is refused; an unlink that
raises a permission or I/O error is caught and reported as `false`; otherwise
the file is removed and the call reports `true`.  A filesystem holds at most
one entry per path, so the filter removes exactly the unlinked file. -/
def cleanup_audio_file (fs : List FsEntry) (filePath : String) : Bool × List FsEntry :=
  if filePath = "" then (false, fs)
  else
    match fs.find? (fun e => e.path == filePath) with
    | none => (true, fs)
    | some e =>
      if e.kind ≠ FsKind.file then (false, fs)
      else if e.locked then (false, fs)
      else (true, fs.filter (fun e2 => !(e2.path == filePath)))

/-- Directory entry as seen by the age-based sweep: file name (within the
storage directory), modification time, kind, and the `locked` failure flag. -/
structure DirEntry where
  name : String
  mtime : Int
  kind : FsKind
  locked : Bool
  deriving DecidableEq

/-- Glob pattern `lecture_*.mp3`: the name is `lecture_`, then an arbitrary
(possibly empty) character sequence, then `.mp3`. -/
def matchesLecturePattern (name : String) : Bool :=
  "lecture_".data.isPrefixOf name.data && ".mp3".data.isSuffixOf name.data &&
    decide (12 ≤ name.length)

/-- Loop body of `cleanup_old_audio_files`: for each entry matching the glob
pattern whose modification time is before the cutoff, attempt deletion via
`cleanup_audio_file` (which fails on non-files and locked entries) and count
the successful deletions; every other entry is kept untouched. -/
def sweepOldEntries (cutoff : Int) : List DirEntry → Nat × List DirEntry
  | [] => (0, [])
  | e :: es =>
    let r := sweepOldEntries cutoff es
    if matchesLecturePattern e.name then
      if e.mtime < cutoff then
        if e.kind = FsKind.file ∧ e.locked = false then (r.1 + 1, r.2)
        else (r.1, e :: r.2)
      else (r.1, e :: r.2)
    else (r.1, e :: r.2)

/-- Python `cleanup_old_audio_files`: a missing storage directory yields 0;
otherwise sweep the directory with cutoff `now - max_age_hours * 3600` and
return the number of deleted files together with the resulting directory. -/
def cleanup_old_audio_files (dir : Option (List DirEntry)) (now maxAgeHours : Int) :
    Nat × Option (List DirEntry) :=
  match dir with
  | none => (0, none)
  | some entries =>
    let r := sweepOldEntries (now - maxAgeHours * 3600) entries
    (r.1, some r.2)

/-! ## Error taxonomy and boundary handlers (backend/exceptions.py,
backend/middleware/error_handler.py) -/

/-- Exception kinds of the application taxonomy; `baseApp` stands for
`TOEFLAppException` itself or any subclass absent from the handler's status
map. -/
inductive ExcKind where
  | auth
  | problemGeneration
  | speechProcessing
  | scoring
  | rateLimitExceeded
  | externalAPI
  | validation
  | baseApp
  deriving DecidableEq

/-- Application exception as the boundary handler sees it: its kind plus the
fields set by `TOEFLAppException.__init__`. -/
structure ToeflExc where
  kind : ExcKind
  message : String
  userMessage : String
  errorCode : Option String
  details : List (String × String)
  deriving DecidableEq

/-- Python `exc.error_code or default`: `or` falls through on `None` and on the
empty string. -/
def pyOrDefault (v : Option String) (d : String) : String :=
  match v with
  | none => d
  | some s => if s = "" then d else s

/-- Status map of `toefl_exception_handler`: a dict keyed by exact exception
type, read with default 500. -/
def statusCodeMap (k : ExcKind) : Nat :=
  match k with
  | .auth => 401
  | .rateLimitExceeded => 429
  | .externalAPI => 503
  | .validation => 400
  | .problemGeneration => 500
  | .speechProcessing => 500
  | .scoring => 500
  | .baseApp => 500

/-- Nested `error` object of the unified error body. -/
structure EnvelopeDict where
  code : String
  message : String
  userMessage : String
  details : List (String × String)
  deriving DecidableEq

/-- Transmitted JSON body of every failure response. -/
structure ErrorBody where
  error : EnvelopeDict
  detail : String
  deriving DecidableEq

/-- Python `ErrorResponse.to_dict`: the body nests code, message, user message
and details under `error`, and duplicates the message as top-level `detail`. -/
def error_response_to_dict (errorCode message userMessage : String)
    (details : List (String × String)) : ErrorBody :=
  { error :=
      { code := errorCode, message := message, userMessage := userMessage,
        details := details },
    detail := message }

/-- Python `toefl_exception_handler`: status from the exact-type map, body from
`ErrorResponse.to_dict` built with the exception's own fields. -/
def toefl_exception_handler (exc : ToeflExc) : Nat × ErrorBody :=
  (statusCodeMap exc.kind,
   error_response_to_dict (pyOrDefault exc.errorCode "INTERNAL_ERROR") exc.message
     exc.userMessage exc.details)

/-- Generic apology used by `generic_exception_handler`. -/
def genericUserMessageText : String :=
  "予期しないエラーが発生しました。しばらく待ってから再試行してください。"

/-- Python `generic_exception_handler`: any unrecognized exception becomes a
500 `INTERNAL_ERROR` envelope whose message carries only the exception's type
name; the raw exception text `excText` is logged server-side and never used in
the body. -/
def generic_exception_handler (excTypeName excText : String) : Nat × ErrorBody :=
  (500,
   error_response_to_dict "INTERNAL_ERROR" ("Internal server error: " ++ excTypeName)
     genericUserMessageText [])

/-! ## Score validation (backend/services/scoring_service.py) -/

/-- Python `int(x)` on a float truncates toward zero; on a rational in lowest
terms (positive denominator) that is the truncating division of the numerator
by the denominator. -/
def pyTruncate (q : ℚ) : Int := q.num.tdiv q.den

/-- Value of a score field as received from parsed JSON: `None`, int, float,
or a non-numeric value such as a string. -/
inductive PyScoreValue where
  | vNone : PyScoreValue
  | vInt (n : Int) : PyScoreValue
  | vFloat (q : ℚ) : PyScoreValue
  | vStr (s : String) : PyScoreValue
  deriving DecidableEq

/-- Range check shared by the int and float branches of `_validate_score`. -/
def validate_score_int (n : Int) (fieldName : String) : Except String Int :=
  if n < 0 ∨ 4 < n then
    .error (s!"Score for {fieldName} must be between 0 and 4, got {n}")
  else .ok n

/-- Python `ScoringService._validate_score`: `None` is a missing field; a float
is truncated to an int; a non-int value is a type error; an int outside `[0,4]`
is a range error naming the field and the value; otherwise the int is stored. -/
def validate_score (score : PyScoreValue) (fieldName : String) : Except String Int :=
  match score with
  | .vNone => .error (s!"Missing required field: {fieldName}")
  | .vFloat q => validate_score_int (pyTruncate q) fieldName
  | .vInt n => validate_score_int n fieldName
  | .vStr _ =>
    .error (s!"Invalid score type for {fieldName}: expected int, got <class 'str'>")

/-! ## Retrying generation client (backend/services/openai_client.py, `call_gpt4`) -/

/-- Outcome of one provider attempt inside the body of `call_gpt4`. -/
inductive ProviderOutcome where
  | success (text : String) : ProviderOutcome
  | rateLimitErr : ProviderOutcome
  | apiTimeoutErr : ProviderOutcome
  | apiErr (msg : String) : ProviderOutcome
  | openAIErr (msg : String) : ProviderOutcome
  | otherErr (msg : String) : ProviderOutcome
  deriving DecidableEq

/-- Exception that a decorated attempt can raise, as tenacity observes it.
The provider exception types appear here because the retry predicate is
defined over them; the body of `call_gpt4` only ever lets `externalAPIError`
escape, after the `except` clauses convert the provider errors. -/
inductive RaisedExc where
  | rateLimitError : RaisedExc
  | apiTimeoutError : RaisedExc
  | apiError (msg : String) : RaisedExc
  | externalAPIError (service : String) (message : String) : RaisedExc
  deriving DecidableEq

/-- Body of `call_gpt4` for a single attempt: a success returns the text; every
provider failure is caught and re-raised as `ExternalAPIError("OpenAI", ...)`
with the message of the matching `except` clause. -/
def call_gpt4_body (outcome : ProviderOutcome) : Except RaisedExc String :=
  match outcome with
  | .success t => .ok t
  | .rateLimitErr =>
    .error (.externalAPIError "OpenAI" "Rate limit exceeded. Please try again later.")
  | .apiTimeoutErr =>
    .error (.externalAPIError "OpenAI" "Request timed out. Please try again.")
  | .apiErr m => .error (.externalAPIError "OpenAI" ("API error: " ++ m))
  | .openAIErr m => .error (.externalAPIError "OpenAI" ("Unexpected error: " ++ m))
  | .otherErr m => .error (.externalAPIError "OpenAI" ("Unexpected error: " ++ m))

/-- tenacity predicate `retry_if_exception_type((RateLimitError, APITimeoutError,
APIError))`: true exactly on instances of those provider exception classes;
`ExternalAPIError` extends the application base exception and is none of them. -/
def gpt4RetryPredicate (e : RaisedExc) : Bool :=
  match e with
  | .rateLimitError => true
  | .apiTimeoutError => true
  | .apiError _ => true
  | .externalAPIError _ _ => false

/-- tenacity retry loop with `reraise=True`: run the body; on success stop; on
a raised exception retry only while the predicate holds and retries remain
(`fuel` is the number of retries still allowed, so `stop_after_attempt(n)`
starts with `fuel = n - 1`).  Returns the final result and the number of the
attempt that produced it. -/
def tenacityRun (pred : RaisedExc → Bool) (body : Nat → Except RaisedExc String) :
    Nat → Nat → Except RaisedExc String × Nat
  | attempt, 0 => (body attempt, attempt)
  | attempt, fuel + 1 =>
    match body attempt with
    | .ok v => (.ok v, attempt)
    | .error e =>
      if pred e then tenacityRun pred body (attempt + 1) fuel else (.error e, attempt)

/-- Python `call_gpt4` under `@retry(stop=stop_after_attempt(3), ...)`:
the decorated body is attempted with at most two retries, with the provider's
behaviour per attempt given by `provider`. -/
def call_gpt4 (provider : Nat → ProviderOutcome) : Except RaisedExc String × Nat :=
  tenacityRun gpt4RetryPredicate (fun n => call_gpt4_body (provider n)) 1 2

/-- Provider behaviour of the retry scenario in the claim: attempts 1 and 2
fail with upstream throttling, attempt 3 succeeds. -/
def retryThenSucceedProvider : Nat → ProviderOutcome :=
  fun n => if n ≤ 2 then .rateLimitErr else .success "generated text"

/-! ## Response sanitizer (backend/services/openai_client.py,
`_clean_json_response` and `generate_task4_problem`) -/

/-- Characters Python `str.strip()` removes. -/
def pyWhitespace : List Char := [' ', '\t', '\n', '\r', '\x0b', '\x0c']

/-- Python `str.strip()` over the character list. -/
def pyStripChars (cs : List Char) : List Char :=
  ((cs.dropWhile (fun c => decide (c ∈ pyWhitespace))).reverse.dropWhile
    (fun c => decide (c ∈ pyWhitespace))).reverse

/-- Python `str.strip()`. -/
def pyStrip (s : String) : String := String.mk (pyStripChars s.data)

/-- Helper of `pyFind`: scan for the first position at or after the running
index `i` where `subCs` occurs. -/
def findSubAux (subCs : List Char) : List Char → Nat → Option Nat
  | [], i => if subCs = [] then some i else none
  | c :: rest, i =>
    if subCs.isPrefixOf (c :: rest) then some i else findSubAux subCs rest (i + 1)

/-- Python `hay.find(subStr, start)`: index of the first occurrence at or after
`start`, `none` standing for -1. -/
def pyFind (hay subStr : List Char) (start : Nat) : Option Nat :=
  findSubAux subStr (hay.drop start) start

/-- Python `subStr in hay` on strings: substring containment. -/
def pyContainsSub (hay subStr : List Char) : Bool := (pyFind hay subStr 0).isSome

/-- Python `hay.rfind(c)` for a single character: index of its last occurrence. -/
def pyRfindChar (cs : List Char) (c : Char) : Option Nat :=
  match pyFind cs.reverse [c] 0 with
  | none => none
  | some i => some (cs.length - 1 - i)

/-- Python slice `cs[a:b]`. -/
def pySlice (cs : List Char) (a b : Nat) : List Char := (cs.drop a).take (b - a)

/-- Step of `_clean_json_response` handling a "```json" fence: extract the text
between the marker and the next "```" and strip it. -/
def jsonFenceStep (cs : List Char) : List Char :=
  if pyContainsSub cs ("```json".data) then
    match pyFind cs ("```json".data) 0 with
    | none => cs
    | some i =>
      match pyFind cs ("```".data) (i + 7) with
      | none => cs
      | some j => pyStripChars (pySlice cs (i + 7) j)
  else cs

/-- Step of `_clean_json_response` handling a remaining generic fence: when the
text both starts and ends with "```" and spans more than two lines, drop the
first and last lines. -/
def genericFenceStep (cs : List Char) : List Char :=
  if ("```".data).isPrefixOf cs && ("```".data).isSuffixOf cs then
    let ls := cs.splitOn '\n'
    if 2 < ls.length then List.intercalate ['\n'] (ls.dropLast.drop 1) else cs
  else cs

/-- Step of `_clean_json_response` removing control characters other than
newline, carriage return and tab. -/
def ctrlFilterStep (cs : List Char) : List Char :=
  cs.filter (fun c => decide (32 ≤ c.toNat) || decide (c ∈ ['\n', '\r', '\t']))

/-- Step of `_clean_json_response` trimming to the JSON object boundaries: when
the text does not start with a brace, drop everything before the first opening
brace; when it does not end with one, drop everything after the last closing
brace. -/
def braceTrimStep (cs : List Char) : List Char :=
  let cs5 :=
    if (['{'] : List Char).isPrefixOf cs then cs
    else
      match pyFind cs ['{'] 0 with
      | none => cs
      | some i => cs.drop i
  if (['}'] : List Char).isSuffixOf cs5 then cs5
  else
    match pyRfindChar cs5 '}' with
    | none => cs5
    | some j => cs5.take (j + 1)

/-- Python `OpenAIClient._clean_json_response`, written with the same sequence
of reassignments as the source body. -/
def clean_json_response_chars (cs0 : List Char) : List Char :=
  let cs1 := pyStripChars cs0
  let cs2 :=
    if pyContainsSub cs1 ("```json".data) then
      match pyFind cs1 ("```json".data) 0 with
      | none => cs1
      | some i =>
        match pyFind cs1 ("```".data) (i + 7) with
        | none => cs1
        | some j => pyStripChars (pySlice cs1 (i + 7) j)
    else cs1
  let cs3 :=
    if ("```".data).isPrefixOf cs2 && ("```".data).isSuffixOf cs2 then
      let ls := cs2.splitOn '\n'
      if 2 < ls.length then List.intercalate ['\n'] (ls.dropLast.drop 1) else cs2
    else cs2
  let cs4 := cs3.filter (fun c => decide (32 ≤ c.toNat) || decide (c ∈ ['\n', '\r', '\t']))
  let cs5 :=
    if (['{'] : List Char).isPrefixOf cs4 then cs4
    else
      match pyFind cs4 ['{'] 0 with
      | none => cs4
      | some i => cs4.drop i
  if (['}'] : List Char).isSuffixOf cs5 then cs5
  else
    match pyRfindChar cs5 '}' with
    | none => cs5
    | some j => cs5.take (j + 1)

/-- Python `OpenAIClient._clean_json_response` on strings. -/
def clean_json_response (s : String) : String := String.mk (clean_json_response_chars s.data)

/-- Extraction pipeline exactly as the claim words it, for comparison with
`clean_json_response`: trim; if a fenced code-block marker is present take the
content strictly between the first fence-open and the next fence-close (with no
further trimming); strip control characters except newline, carriage return and
tab; trim to the JSON object braces. -/
def claimExtractChars (cs0 : List Char) : List Char :=
  let cs1 := pyStripChars cs0
  let cs2 :=
    if pyContainsSub cs1 ("```json".data) then
      match pyFind cs1 ("```json".data) 0 with
      | none => cs1
      | some i =>
        match pyFind cs1 ("```".data) (i + 7) with
        | none => cs1
        | some j => pySlice cs1 (i + 7) j
    else cs1
  braceTrimStep (ctrlFilterStep cs2)

/-- Claim-worded extraction on strings. -/
def claimExtract (s : String) : String := String.mk (claimExtractChars s.data)

/-- JSON value as `json.loads` produces it; numbers keep their lexeme. -/
inductive Json where
  | obj (fields : List (String × Json)) : Json
  | arr (items : List Json) : Json
  | str (s : String) : Json
  | num (lexeme : String) : Json
  | boolean (b : Bool) : Json
  | null : Json

/-- JSON structural whitespace. -/
def jsonWs (c : Char) : Bool := decide (c ∈ [' ', '\t', '\n', '\r'])

/-- Drop leading JSON whitespace. -/
def skipJsonWs (cs : List Char) : List Char := cs.dropWhile jsonWs

/-- Value of a hex digit. -/
def hexVal (c : Char) : Option Nat :=
  if '0' ≤ c ∧ c ≤ '9' then some (c.toNat - 48)
  else if 'a' ≤ c ∧ c ≤ 'f' then some (c.toNat - 87)
  else if 'A' ≤ c ∧ c ≤ 'F' then some (c.toNat - 55)
  else none

/-- Body of a JSON string literal after the opening quote: collect characters
up to the closing quote, decoding escapes and rejecting unescaped control
characters, as the strict `json.loads` does. -/
def parseJsonStringAux : Nat → List Char → List Char → Option (String × List Char)
  | 0, _, _ => none
  | fuel + 1, acc, cs =>
    match cs with
    | [] => none
    | '"' :: rest => some (String.mk acc.reverse, rest)
    | '\\' :: e :: rest =>
      if e = '"' then parseJsonStringAux fuel ('"' :: acc) rest
      else if e = '\\' then parseJsonStringAux fuel ('\\' :: acc) rest
      else if e = '/' then parseJsonStringAux fuel ('/' :: acc) rest
      else if e = 'b' then parseJsonStringAux fuel ('\x08' :: acc) rest
      else if e = 'f' then parseJsonStringAux fuel ('\x0c' :: acc) rest
      else if e = 'n' then parseJsonStringAux fuel ('\n' :: acc) rest
      else if e = 'r' then parseJsonStringAux fuel ('\r' :: acc) rest
      else if e = 't' then parseJsonStringAux fuel ('\t' :: acc) rest
      else if e = 'u' then
        match rest with
        | h1 :: h2 :: h3 :: h4 :: rest2 =>
          match hexVal h1, hexVal h2, hexVal h3, hexVal h4 with
          | some a, some b, some c, some d =>
            parseJsonStringAux fuel (Char.ofNat (((a * 16 + b) * 16 + c) * 16 + d) :: acc) rest2
          | _, _, _, _ => none
        | _ => none
      else none
    | c :: rest =>
      if c.toNat < 32 then none else parseJsonStringAux fuel (c :: acc) rest

/-- Fraction and exponent tail of a JSON number; an ill-formed tail is left
unconsumed so that the surrounding structure rejects it. -/
def parseFracExp (cs : List Char) : List Char × List Char :=
  let p1 :=
    match cs with
    | '.' :: r =>
      let ds := r.takeWhile (fun c : Char => c.isDigit)
      if ds = [] then (([] : List Char), cs)
      else ('.' :: ds, r.dropWhile (fun c : Char => c.isDigit))
    | _ => ([], cs)
  let p2 :=
    match p1.2 with
    | e :: r =>
      if e = 'e' ∨ e = 'E' then
        let sr :=
          match r with
          | '+' :: rr => ((['+'] : List Char), rr)
          | '-' :: rr => (['-'], rr)
          | _ => ([], r)
        let ds := sr.2.takeWhile (fun c : Char => c.isDigit)
        if ds = [] then (([] : List Char), p1.2)
        else (e :: (sr.1 ++ ds), sr.2.dropWhile (fun c : Char => c.isDigit))
      else ([], p1.2)
    | [] => ([], p1.2)
  (p1.1 ++ p2.1, p2.2)

/-- JSON number: optional minus, an integer part that is a lone zero or a
nonzero-led digit run, then the optional fraction and exponent. -/
def parseJsonNumber (cs : List Char) : Option (String × List Char) :=
  let sp :=
    match cs with
    | '-' :: r => ((['-'] : List Char), r)
    | _ => ([], cs)
  match sp.2 with
  | '0' :: r =>
    let t := parseFracExp r
    some (String.mk (sp.1 ++ ['0'] ++ t.1), t.2)
  | c :: _ =>
    if c.isDigit then
      let ds := sp.2.takeWhile (fun c2 => c2.isDigit)
      let r := sp.2.dropWhile (fun c2 => c2.isDigit)
      let t := parseFracExp r
      some (String.mk (sp.1 ++ ds ++ t.1), t.2)
    else none
  | [] => none

mutual

/-- Recursive-descent JSON value, mirroring `json.loads` on the grammar the
application exercises. -/
def parseJsonValue : Nat → List Char → Option (Json × List Char)
  | 0, _ => none
  | fuel + 1, cs =>
    match skipJsonWs cs with
    | '{' :: rest =>
      match skipJsonWs rest with
      | '}' :: rest2 => some (.obj [], rest2)
      | _ =>
        match parseJsonMembers fuel (skipJsonWs rest) [] with
        | some (fs, rest2) => some (.obj fs, rest2)
        | none => none
    | '[' :: rest =>
      match skipJsonWs rest with
      | ']' :: rest2 => some (.arr [], rest2)
      | _ =>
        match parseJsonItems fuel (skipJsonWs rest) [] with
        | some (xs, rest2) => some (.arr xs, rest2)
        | none => none
    | '"' :: rest =>
      match parseJsonStringAux (rest.length + 1) [] rest with
      | some (s, rest2) => some (.str s, rest2)
      | none => none
    | 't' :: rest =>
      if ("rue".data).isPrefixOf rest then some (.boolean true, rest.drop 3) else none
    | 'f' :: rest =>
      if ("alse".data).isPrefixOf rest then some (.boolean false, rest.drop 4) else none
    | 'n' :: rest =>
      if ("ull".data).isPrefixOf rest then some (.null, rest.drop 3) else none
    | cs2 =>
      match parseJsonNumber cs2 with
      | some (lx, rest) => some (.num lx, rest)
      | none => none

/-- Members of a JSON object after the opening brace (nonempty case). -/
def parseJsonMembers :
    Nat → List Char → List (String × Json) → Option (List (String × Json) × List Char)
  | 0, _, _ => none
  | fuel + 1, cs, acc =>
    match skipJsonWs cs with
    | '"' :: rest =>
      match parseJsonStringAux (rest.length + 1) [] rest with
      | none => none
      | some (key, rest2) =>
        match skipJsonWs rest2 with
        | ':' :: rest3 =>
          match parseJsonValue fuel rest3 with
          | none => none
          | some (v, rest4) =>
            match skipJsonWs rest4 with
            | ',' :: rest5 => parseJsonMembers fuel rest5 (acc ++ [(key, v)])
            | '}' :: rest5 => some (acc ++ [(key, v)], rest5)
            | _ => none
        | _ => none
    | _ => none

/-- Items of a JSON array after the opening bracket (nonempty case). -/
def parseJsonItems : Nat → List Char → List Json → Option (List Json × List Char)
  | 0, _, _ => none
  | fuel + 1, cs, acc =>
    match parseJsonValue fuel cs with
    | none => none
    | some (v, rest) =>
      match skipJsonWs rest with
      | ',' :: rest2 => parseJsonItems fuel rest2 (acc ++ [v])
      | ']' :: rest2 => some (acc ++ [v], rest2)
      | _ => none

end

/-- Python `json.loads`: parse one value and require only whitespace after it. -/
def jsonLoads (s : String) : Option Json :=
  match parseJsonValue (2 * s.length + 8) s.data with
  | none => none
  | some (v, rest) => if skipJsonWs rest = [] then some v else none

/-- Python `field in data` as used by the required-field check: key membership
for a dict, element equality for a list, substring test for a string, and a
`TypeError` for the non-container values. -/
def pyMembership (field : String) : Json → Except Unit Bool
  | .obj fields => .ok (fields.any (fun kv => kv.1 == field))
  | .arr items =>
    .ok (items.any (fun it =>
      match it with
      | .str s => s == field
      | _ => false))
  | .str s => .ok (pyContainsSub s.data field.data)
  | .num _ => .error ()
  | .boolean _ => .error ()
  | .null => .error ()

/-- Failure modes of `generate_task4_problem` after a successful provider call;
each is raised as a `ProblemGenerationError`: a `json.JSONDecodeError` becomes
"Failed to generate valid problem format", a missing required field is named,
and any other exception (such as the `TypeError` of a membership test on a
non-container) is wrapped by the final generic handler. -/
inductive GenError where
  | jsonDecodeFailure : GenError
  | missingField (field : String) : GenError
  | unexpectedFailure : GenError
  deriving DecidableEq

/-- Python `generate_task4_problem` from the point the provider's raw text is
available: clean the response, parse it as JSON, check the two required fields
with Python membership, and return the parsed data. -/
def generate_task4_problem (rawResponse : String) : Except GenError Json :=
  match jsonLoads (clean_json_response rawResponse) with
  | none => .error .jsonDecodeFailure
  | some data =>
    match pyMembership "lecture_script" data with
    | .error _ => .error .unexpectedFailure
    | .ok hasLecture =>
      if !hasLecture then .error (.missingField "lecture_script")
      else
        match pyMembership "question" data with
        | .error _ => .error .unexpectedFailure
        | .ok hasQuestion =>
          if !hasQuestion then .error (.missingField "question")
          else .ok data

/-- Scoring exception with a distinctive internal message, used to exhibit the
content of the transmitted body. -/
def scoringInternalExc : ToeflExc :=
  { kind := .scoring, message := "Invalid scoring data format: stack details",
    userMessage := "採点処理に失敗しました。もう一度お試しください。",
    errorCode := some "SCORING_ERROR", details := [] }

/-- Small filesystem with one audio file and one directory. -/
def demoFs : List FsEntry :=
  [{ path := "audio_files/lecture_1.mp3", kind := .file, locked := false },
   { path := "audio_files", kind := .dir, locked := false }]

/-! ## Theorems -/

/-- Helper: when every stored timestamp is inside the window, eviction keeps
the history unchanged. -/
theorem clean_old_eq_self {hist : List Int} {t : Int}
    (h : ∀ ts ∈ hist, t - windowSize < ts) : clean_old_requests hist t = hist := by
  rw [clean_old_requests, List.filter_eq_self]
  intro ts hts
  simpa using h ts hts

/-- Helper: the reject branch of the rate limiter. -/
theorem rate_limit_dispatch_reject {capacity : Nat} {store : RateStore}
    {path user : String} {t : Int} (hpath : path ∉ bypassPaths)
    (h : capacity ≤ (clean_old_requests (store user) t).length) :
    rate_limit_dispatch capacity store path user t =
      (.reject 429
        { retryAfter := some windowSize, limit := (capacity : Int), remaining := 0,
          reset := t + windowSize },
       fun u => if u = user then clean_old_requests (store user) t else store u) := by
  simp [rate_limit_dispatch, hpath, h]

/-- Helper: the allow branch of the rate limiter. -/
theorem rate_limit_dispatch_allow {capacity : Nat} {store : RateStore}
    {path user : String} {t : Int} (hpath : path ∉ bypassPaths)
    (h : (clean_old_requests (store user) t).length < capacity) :
    rate_limit_dispatch capacity store path user t =
      (.allow
        { retryAfter := none, limit := (capacity : Int),
          remaining := (capacity : Int) - (clean_old_requests (store user) t).length - 1,
          reset := t + windowSize },
       fun u => if u = user then clean_old_requests (store user) t ++ [t] else store u) := by
  have hmax : max 0 ((capacity : Int) - (clean_old_requests (store user) t).length) =
      (capacity : Int) - (clean_old_requests (store user) t).length := by
    apply max_eq_right
    omega
  simp [rate_limit_dispatch, hpath, not_le.mpr h, hmax]

/-- Helper: admission flags of a sequential run whose request times all lie
within one window, starting from an arbitrary in-window history. -/
theorem runRequests_flags (capacity : Nat) (path user : String) (times : List Int)
    (store : RateStore) (hpath : path ∉ bypassPaths)
    (hwin : ∀ t ∈ times, ∀ s ∈ times, t - s < 60)
    (hold : ∀ h ∈ store user, ∀ t ∈ times, t - windowSize < h) :
    (runRequests capacity path user store times).1 =
      (List.range times.length).map
        (fun i => decide ((store user).length + i < capacity)) := by
  induction times generalizing store with
  | nil => simp [runRequests]
  | cons t ts ih =>
    have hclean : clean_old_requests (store user) t = store user :=
      clean_old_eq_self (fun h hh => hold h hh t (by simp))
    have hwin' : ∀ t' ∈ ts, ∀ s' ∈ ts, t' - s' < 60 :=
      fun t' ht' s' hs' => hwin t' (by simp [ht']) s' (by simp [hs'])
    by_cases hcap : capacity ≤ (store user).length
    · have hd := @rate_limit_dispatch_reject capacity store path user t
        hpath (by rw [hclean]; exact hcap)
      have hstore' :
          (fun u => if u = user then clean_old_requests (store user) t else store u) user =
            store user := by
        simp [hclean]
      have ihflags := ih
        (fun u => if u = user then clean_old_requests (store user) t else store u) hwin'
        (by
          rw [hstore']
          exact fun h hh t' ht' => hold h hh t' (by simp [ht']))
      rw [hstore'] at ihflags
      simp only [runRequests, hd, isAllowed]
      rw [ihflags]
      simp only [List.length_cons]
      rw [List.range_succ_eq_map, List.map_cons, List.map_map]
      refine List.cons_eq_cons.mpr ⟨?_, ?_⟩
      · exact (decide_eq_false (by omega)).symm
      · apply List.map_congr_left
        intro i _
        simp only [Function.comp_apply]
        exact decide_eq_decide.mpr (by omega)
    · push_neg at hcap
      have hd := @rate_limit_dispatch_allow capacity store path user t
        hpath (by rw [hclean]; exact hcap)
      have hstore' :
          (fun u => if u = user then clean_old_requests (store user) t ++ [t] else store u)
              user = store user ++ [t] := by
        simp [hclean]
      have ihflags := ih
        (fun u => if u = user then clean_old_requests (store user) t ++ [t] else store u)
        hwin'
        (by
          rw [hstore']
          intro h hh t' ht'
          rcases List.mem_append.mp hh with hh1 | hh2
          · exact hold h hh1 t' (by simp [ht'])
          · have heq : h = t := by simpa using hh2
            subst heq
            have := hwin t' (by simp [ht']) h (by simp)
            simp only [windowSize]
            omega)
      rw [hstore'] at ihflags
      simp only [runRequests, hd, isAllowed]
      rw [ihflags]
      simp only [List.length_cons]
      rw [List.range_succ_eq_map, List.map_cons, List.map_map]
      refine List.cons_eq_cons.mpr ⟨?_, ?_⟩
      · exact (decide_eq_true (by omega)).symm
      · apply List.map_congr_left
        intro i _
        simp only [Function.comp_apply, List.length_append, List.length_cons,
          List.length_nil]
        exact decide_eq_decide.mpr (by omega)

/-- C1: an admission check for identity `user` at time `t` first discards the
stored timestamps older than `t - 60`; when the remaining count reaches the
capacity the request is rejected with status 429 and headers Retry-After 60,
limit `C`, remaining 0 and reset `t + 60`; otherwise `t` is appended, the
request is allowed and the remaining header is `C - count - 1`.  Consequently a
sequential run from an empty history whose request times all lie within one
60-second window admits exactly the first `C` requests and rejects the rest. -/
theorem claim_C1_sliding_window :
    (∀ (capacity : Nat) (store : RateStore) (path user : String) (t : Int),
      path ∉ bypassPaths →
      (∀ ts ∈ store user, ts < t - 60 →
        ts ∉ (rate_limit_dispatch capacity store path user t).2 user) ∧
      (capacity ≤ (clean_old_requests (store user) t).length →
        rate_limit_dispatch capacity store path user t =
          (.reject 429
            { retryAfter := some 60, limit := (capacity : Int), remaining := 0,
              reset := t + 60 },
           fun u => if u = user then clean_old_requests (store user) t else store u)) ∧
      ((clean_old_requests (store user) t).length < capacity →
        rate_limit_dispatch capacity store path user t =
          (.allow
            { retryAfter := none, limit := (capacity : Int),
              remaining := (capacity : Int) - (clean_old_requests (store user) t).length - 1,
              reset := t + 60 },
           fun u => if u = user then clean_old_requests (store user) t ++ [t] else store u))) ∧
    (∀ (capacity : Nat) (path user : String) (times : List Int),
      path ∉ bypassPaths →
      (∀ t ∈ times, ∀ s ∈ times, t - s < 60) →
      (runRequests capacity path user emptyStore times).1 =
        (List.range times.length).map (fun i => decide (i < capacity))) := by
  constructor
  · intro capacity store path user t hpath
    refine ⟨?_, ?_, ?_⟩
    · intro ts hts hold hmem
      by_cases hcap : capacity ≤ (clean_old_requests (store user) t).length
      · rw [rate_limit_dispatch_reject hpath hcap] at hmem
        simp only [if_pos rfl] at hmem
        have := (List.mem_filter.mp hmem).2
        simp only [windowSize, decide_eq_true_eq] at this
        omega
      · push_neg at hcap
        rw [rate_limit_dispatch_allow hpath hcap] at hmem
        simp only [if_pos rfl] at hmem
        rcases List.mem_append.mp hmem with hmem1 | hmem2
        · have := (List.mem_filter.mp hmem1).2
          simp only [windowSize, decide_eq_true_eq] at this
          omega
        · have : ts = t := by simpa using hmem2
          omega
    · intro hcap
      simpa [windowSize] using rate_limit_dispatch_reject hpath hcap
    · intro hcap
      simpa [windowSize] using rate_limit_dispatch_allow hpath hcap
  · intro capacity path user times hpath hwin
    have h := runRequests_flags capacity path user times emptyStore hpath hwin
      (by intro h hh; simp [emptyStore] at hh)
    simpa [emptyStore] using h

/-- C1 witness: with capacity 2 and three requests at times 0, 10, 20 (all in
one window) on a non-bypassed path, the first two are admitted and the third
is rejected. -/
theorem claim_C1_witness :
    (runRequests 2 "/api/scoring" "user1" emptyStore [0, 10, 20]).1 =
      [true, true, false] := by
  have h := claim_C1_sliding_window.2 2 "/api/scoring" "user1" [0, 10, 20]
    (by decide) (by decide)
  rw [h]
  rfl

/-- C2: the retry configuration of `call_gpt4` never fires, because the body
converts every provider failure into `ExternalAPIError` before tenacity can
test it against the retryable provider exception types.  Every call therefore
finishes on attempt 1; in particular the scenario of the claim — throttled on
attempts 1 and 2, succeeding on attempt 3 — raises `ExternalAPIError` carrying
the service name after a single attempt instead of returning the attempt-3
success, even though a third attempt would have succeeded. -/
theorem claim_C2_retry_never_fires :
    (∀ provider : Nat → ProviderOutcome, (call_gpt4 provider).2 = 1) ∧
    call_gpt4 retryThenSucceedProvider =
      (.error (.externalAPIError "OpenAI" "Rate limit exceeded. Please try again later."),
        1) ∧
    call_gpt4_body (retryThenSucceedProvider 3) = .ok "generated text" := by
  refine ⟨?_, rfl, rfl⟩
  intro provider
  cases h : provider 1 <;>
    simp [call_gpt4, tenacityRun, call_gpt4_body, gpt4RetryPredicate, h]

/-- C3 counterexample: for a scoring failure the transmitted body carries the
exception's internal message, both as `error.message` and as the top-level
`detail`; the claim that the internal message never appears in the transmitted
body is false. -/
theorem claim_C3_counterexample :
    (toefl_exception_handler scoringInternalExc).2.error.message =
      scoringInternalExc.message ∧
    (toefl_exception_handler scoringInternalExc).2.detail = scoringInternalExc.message ∧
    scoringInternalExc.message = "Invalid scoring data format: stack details" :=
  ⟨rfl, rfl, rfl⟩

/-- C3 (amended): every application failure crossing the boundary maps to
exactly one envelope whose body carries the machine code, the user-facing
message and the details — and also the internal message, transmitted both as
`error.message` and duplicated as top-level `detail`. -/
theorem claim_C3_single_envelope (exc : ToeflExc) :
    ∃ body : ErrorBody,
      toefl_exception_handler exc = (statusCodeMap exc.kind, body) ∧
      body.error.code = pyOrDefault exc.errorCode "INTERNAL_ERROR" ∧
      body.error.userMessage = exc.userMessage ∧
      body.error.details = exc.details ∧
      body.error.message = exc.message ∧
      body.detail = exc.message :=
  ⟨_, rfl, rfl, rfl, rfl, rfl, rfl⟩

/-- C4: an int score is accepted exactly when it lies in the closed range
`[0,4]`; a float is first truncated toward zero and then validated and stored
as that integer; a range violation raises an error naming the field and the
value.  Truncation is toward zero (an odd function, unlike flooring), so 4 is
accepted, 5 and -1 are rejected, and 3.9 is accepted and stored as 3. -/
theorem claim_C4_score_validation :
    (∀ (f : String) (n : Int), validate_score (.vInt n) f = .ok n ↔ 0 ≤ n ∧ n ≤ 4) ∧
    (∀ (f : String) (q : ℚ),
      validate_score (.vFloat q) f = validate_score (.vInt (pyTruncate q)) f) ∧
    (∀ (f : String) (n : Int), n < 0 ∨ 4 < n →
      validate_score (.vInt n) f =
        .error s!"Score for {f} must be between 0 and 4, got {n}") ∧
    (∀ q : ℚ, pyTruncate (-q) = -pyTruncate q) ∧
    validate_score (.vInt 4) "delivery_score" = .ok 4 ∧
    validate_score (.vInt 5) "delivery_score" =
      .error "Score for delivery_score must be between 0 and 4, got 5" ∧
    validate_score (.vInt (-1)) "delivery_score" =
      .error "Score for delivery_score must be between 0 and 4, got -1" ∧
    validate_score (.vFloat (39 / 10)) "delivery_score" = .ok 3 ∧
    pyTruncate (39 / 10) = 3 := by
  have htrunc : pyTruncate (39 / 10 : ℚ) = 3 := by
    rw [pyTruncate]
    have h1 : ((39 : ℚ) / 10).num = 39 := by norm_num
    have h2 : ((39 : ℚ) / 10).den = 10 := by norm_num
    rw [h1, h2]
    decide
  have hfloat : validate_score (.vFloat (39 / 10)) "delivery_score" = .ok 3 := by
    show validate_score_int (pyTruncate (39 / 10 : ℚ)) "delivery_score" = Except.ok 3
    rw [htrunc]
    rfl
  refine ⟨?_, fun f q => rfl, ?_, ?_, rfl, rfl, rfl, hfloat, htrunc⟩
  · intro f n
    simp only [validate_score, validate_score_int]
    split
    · rename_i h
      constructor
      · intro hc
        exact absurd hc (by simp)
      · intro hc
        omega
    · rename_i h
      constructor
      · intro _
        omega
      · intro _
        rfl
  · intro f n h
    simp only [validate_score, validate_score_int]
    rw [if_pos h]
  · intro q
    rw [pyTruncate, pyTruncate, Rat.neg_num, Rat.neg_den, Int.neg_tdiv]

/-- C4 witness: the range-violation branch of the validation at a concrete
out-of-range value names the field and the value. -/
theorem claim_C4_witness :
    validate_score (.vInt 7) "overall_score" =
      .error "Score for overall_score must be between 0 and 4, got 7" := by
  have h := claim_C4_score_validation.2.2.1 "overall_score" 7 (Or.inr (by norm_num))
  exact h

/-- C6: development environments and loopback hosts pass through unchanged
regardless of scheme; otherwise a request that is neither on the https scheme
nor marked https by the forwarded-protocol header gets a 301 permanent redirect
to the same URL with the scheme swapped to https; and any request whose
X-Forwarded-Proto header is https passes through unchanged. -/
theorem claim_C6_https_policy :
    (∀ (environment : Option String) (req : HttpsRequest),
      environment.getD "development" = "development" ∨ req.url.hostname ∈ devHosts →
      https_dispatch environment req = .passThrough) ∧
    (∀ (environment : Option String) (req : HttpsRequest),
      ¬(environment.getD "development" = "development" ∨ req.url.hostname ∈ devHosts) →
      req.url.scheme ≠ "https" → req.xForwardedProto.getD "" ≠ "https" →
      https_dispatch environment req = .redirect 301 { req.url with scheme := "https" }) ∧
    (∀ (environment : Option String) (req : HttpsRequest),
      req.xForwardedProto = some "https" →
      https_dispatch environment req = .passThrough) := by
  refine ⟨?_, ?_, ?_⟩
  · intro environment req h
    simp [https_dispatch, h]
  · intro environment req hbypass h1 h2
    simp only [https_dispatch, if_neg hbypass]
    rw [if_pos ⟨h1, h2⟩]
  · intro environment req h
    by_cases hbypass :
      environment.getD "development" = "development" ∨ req.url.hostname ∈ devHosts
    · simp [https_dispatch, hbypass]
    · simp [https_dispatch, hbypass, h]

/-- C6 witness: a plain-scheme request to a production host redirects to the
https URL; the same on localhost passes; the same with the forwarded-protocol
header set to https passes. -/
theorem claim_C6_witness :
    https_dispatch (some "production")
      { url := { scheme := "http", hostname := "example.com", rest := "/speech" },
        xForwardedProto := none } =
      .redirect 301 { scheme := "https", hostname := "example.com", rest := "/speech" } ∧
    https_dispatch (some "production")
      { url := { scheme := "http", hostname := "localhost", rest := "/speech" },
        xForwardedProto := none } = .passThrough ∧
    https_dispatch (some "production")
      { url := { scheme := "http", hostname := "example.com", rest := "/speech" },
        xForwardedProto := some "https" } = .passThrough :=
  ⟨claim_C6_https_policy.2.1 _ _ (by decide) (by decide) (by decide),
   claim_C6_https_policy.1 _ _ (by decide),
   claim_C6_https_policy.2.2 _ _ rfl⟩

/-- C7: the boundary handler maps authentication to 401, validation to 400,
rate limiting to 429, the external-service failure to 503 and the
generation, transcription and scoring failures to 500; any exception type
absent from the map, including the base kind, falls through to 500, and the
generic handler produces a 500 `INTERNAL_ERROR` envelope whose content does
not depend on the raw exception text. -/
theorem claim_C7_status_mapping :
    statusCodeMap .auth = 401 ∧ statusCodeMap .validation = 400 ∧
    statusCodeMap .rateLimitExceeded = 429 ∧ statusCodeMap .externalAPI = 503 ∧
    statusCodeMap .problemGeneration = 500 ∧ statusCodeMap .scoring = 500 ∧
    statusCodeMap .speechProcessing = 500 ∧ statusCodeMap .baseApp = 500 ∧
    (∀ excTypeName excText : String,
      generic_exception_handler excTypeName excText =
        (500,
         { error :=
             { code := "INTERNAL_ERROR",
               message := "Internal server error: " ++ excTypeName,
               userMessage := genericUserMessageText, details := [] },
           detail := "Internal server error: " ++ excTypeName }) ∧
      generic_exception_handler excTypeName excText =
        generic_exception_handler excTypeName "") :=
  ⟨rfl, rfl, rfl, rfl, rfl, rfl, rfl, rfl, fun _ _ => ⟨rfl, rfl⟩⟩

/-- C8 counterexample: on the empty path no file exists, yet `cleanup_audio_file`
reports failure rather than the claimed success. -/
theorem claim_C8_counterexample :
    cleanup_audio_file [] "" = (false, []) ∧
    List.find? (fun e => e.path == "") ([] : List FsEntry) = none :=
  ⟨rfl, rfl⟩

/-- C8 (amended): for every non-empty path, deletion is idempotent and total:
an absent path reports success with the filesystem unchanged; an existing
non-regular-file entry reports failure; a permission or I/O failure on unlink
is caught and reported as failure; and deleting an existing unlocked regular
file reports success after which the path no longer exists.  The empty path
alone reports failure even though no file exists there. -/
theorem claim_C8_delete_artifact (fs : List FsEntry) (p : String) (hp : p ≠ "") :
    (fs.find? (fun e => e.path == p) = none → cleanup_audio_file fs p = (true, fs)) ∧
    (∀ e, fs.find? (fun e2 => e2.path == p) = some e → e.kind = FsKind.dir →
      cleanup_audio_file fs p = (false, fs)) ∧
    (∀ e, fs.find? (fun e2 => e2.path == p) = some e → e.kind = FsKind.file →
      e.locked = true → cleanup_audio_file fs p = (false, fs)) ∧
    (∀ e, fs.find? (fun e2 => e2.path == p) = some e → e.kind = FsKind.file →
      e.locked = false →
      (cleanup_audio_file fs p).1 = true ∧
      (cleanup_audio_file fs p).2.find? (fun e2 => e2.path == p) = none) := by
  refine ⟨?_, ?_, ?_, ?_⟩
  · intro h
    simp [cleanup_audio_file, hp, h]
  · intro e he hkind
    simp [cleanup_audio_file, hp, he, hkind]
  · intro e he hkind hlocked
    simp [cleanup_audio_file, hp, he, hkind, hlocked]
  · intro e he hkind hlocked
    constructor
    · simp [cleanup_audio_file, hp, he, hkind, hlocked]
    · simp only [cleanup_audio_file, if_neg hp, he, hkind, hlocked]
      apply List.find?_eq_none.mpr
      intro x hx
      have := (List.mem_filter.mp hx).2
      simp only [Bool.not_eq_true'] at this
      simp [this]

/-- C8 witness: deleting the existing audio file of the demo filesystem
succeeds and the path is gone afterwards. -/
theorem claim_C8_witness :
    (cleanup_audio_file demoFs "audio_files/lecture_1.mp3").1 = true ∧
    (cleanup_audio_file demoFs "audio_files/lecture_1.mp3").2.find?
      (fun e2 => e2.path == "audio_files/lecture_1.mp3") = none :=
  (claim_C8_delete_artifact demoFs "audio_files/lecture_1.mp3" (by decide)).2.2.2
    { path := "audio_files/lecture_1.mp3", kind := .file, locked := false } rfl rfl rfl

/-- C9: calling `cleanup_audio_file` with the empty path returns false and
leaves the filesystem unchanged, for every filesystem — in particular even
though no file exists at the empty path; the absent-file-implies-true rule
applies only to non-empty paths. -/
theorem claim_C9_empty_path (fs : List FsEntry) :
    cleanup_audio_file fs "" = (false, fs) := by
  simp [cleanup_audio_file]

/-- Helper: frame and counting properties of the sweep loop, for an arbitrary
cutoff. -/
theorem sweepOldEntries_frame (cutoff : Int) (entries : List DirEntry) :
    ((sweepOldEntries cutoff entries).2.filter
        (fun e => !matchesLecturePattern e.name) =
      entries.filter (fun e => !matchesLecturePattern e.name)) ∧
    List.Sublist (sweepOldEntries cutoff entries).2 entries ∧
    ((sweepOldEntries cutoff entries).1 =
      (entries.filter (fun e =>
        matchesLecturePattern e.name && decide (e.mtime < cutoff) &&
          decide (e.kind = FsKind.file ∧ e.locked = false))).length) := by
  induction entries with
  | nil => exact ⟨rfl, List.Sublist.slnil, rfl⟩
  | cons e es ih =>
    obtain ⟨ih1, ih2, ih3⟩ := ih
    by_cases hm : matchesLecturePattern e.name
    · by_cases ho : e.mtime < cutoff
      · by_cases hd : e.kind = FsKind.file ∧ e.locked = false
        · refine ⟨?_, ?_, ?_⟩
          · simp only [sweepOldEntries, if_pos hm, if_pos ho, if_pos hd]
            rw [ih1, List.filter_cons]
            simp [hm]
          · simp only [sweepOldEntries, if_pos hm, if_pos ho, if_pos hd]
            exact List.Sublist.cons e ih2
          · simp only [sweepOldEntries, if_pos hm, if_pos ho, if_pos hd]
            rw [List.filter_cons]
            simp [hm, ho, hd, ih3]
        · refine ⟨?_, ?_, ?_⟩
          · simp only [sweepOldEntries, if_pos hm, if_pos ho, if_neg hd]
            rw [List.filter_cons, List.filter_cons]
            simp [hm, ih1]
          · simp only [sweepOldEntries, if_pos hm, if_pos ho, if_neg hd]
            exact List.Sublist.cons₂ e ih2
          · simp only [sweepOldEntries, if_pos hm, if_pos ho, if_neg hd]
            rw [List.filter_cons]
            simp [hd, ih3]
      · refine ⟨?_, ?_, ?_⟩
        · simp only [sweepOldEntries, if_pos hm, if_neg ho]
          rw [List.filter_cons, List.filter_cons]
          simp [hm, ih1]
        · simp only [sweepOldEntries, if_pos hm, if_neg ho]
          exact List.Sublist.cons₂ e ih2
        · simp only [sweepOldEntries, if_pos hm, if_neg ho]
          rw [List.filter_cons]
          simp [ho, ih3]
    · refine ⟨?_, ?_, ?_⟩
      · simp only [sweepOldEntries, if_neg hm]
        rw [List.filter_cons, List.filter_cons]
        simp [hm, ih1]
      · simp only [sweepOldEntries, if_neg hm]
        exact List.Sublist.cons₂ e ih2
      · simp only [sweepOldEntries, if_neg hm]
        rw [List.filter_cons]
        simp [hm, ih3]

/-- C10: the age-based sweep only ever deletes entries whose names match
`lecture_*.mp3`: the resulting directory is a sublist of the original, the
entries whose names do not match the pattern survive unchanged regardless of
age, and the returned count equals the number of matching old regular unlocked
files — exactly the deleted matching files; a missing storage directory yields
count 0. -/
theorem claim_C10_sweep_only_matching (entries : List DirEntry) (now maxAgeHours : Int) :
    ((sweepOldEntries (now - maxAgeHours * 3600) entries).2.filter
        (fun e => !matchesLecturePattern e.name) =
      entries.filter (fun e => !matchesLecturePattern e.name)) ∧
    List.Sublist (sweepOldEntries (now - maxAgeHours * 3600) entries).2 entries ∧
    ((sweepOldEntries (now - maxAgeHours * 3600) entries).1 =
      (entries.filter (fun e =>
        matchesLecturePattern e.name && decide (e.mtime < now - maxAgeHours * 3600) &&
          decide (e.kind = FsKind.file ∧ e.locked = false))).length) ∧
    cleanup_old_audio_files (some entries) now maxAgeHours =
      ((sweepOldEntries (now - maxAgeHours * 3600) entries).1,
       some (sweepOldEntries (now - maxAgeHours * 3600) entries).2) ∧
    cleanup_old_audio_files none now maxAgeHours = (0, none) := by
  obtain ⟨h1, h2, h3⟩ := sweepOldEntries_frame (now - maxAgeHours * 3600) entries
  exact ⟨h1, h2, h3, rfl, rfl⟩

/-- C5 counterexample: the code's extraction additionally trims the content
taken from a "```json" fence, so on the raw text "```json X ```" it returns
"X" while the claim's step list returns " X "; and the raw text
`["lecture_script", "question"]`, which contains no JSON braces, is returned
successfully instead of raising the generation-format error, because it parses
as a JSON array whose element-membership check finds both required field
names. -/
theorem claim_C5_counterexample :
    clean_json_response "```json X ```" = "X" ∧
    claimExtract "```json X ```" = " X " ∧
    ("X" : String) ≠ " X " ∧
    generate_task4_problem "[\"lecture_script\", \"question\"]" =
      .ok (.arr [.str "lecture_script", .str "question"]) := by
  refine ⟨rfl, rfl, ?_, rfl⟩
  decide

/-- C5 (amended): the extraction applies, in order: trim; if a "```json"
marker is present, take the content strictly between it and the next fence and
trim it, then handle a remaining generic fence by dropping its first and last
lines; strip control characters except newline, carriage return and tab; trim
to the outermost braces.  The raw text with a fenced `{"a":1}` extracts to
exactly that object; raw text whose extraction fails to parse as JSON raises
the generation-format error; and a successful return implies both required
field names were found by the membership check. -/
theorem claim_C5_sanitizer :
    (∀ s : String,
      clean_json_response s =
        String.mk (braceTrimStep (ctrlFilterStep (genericFenceStep (jsonFenceStep
          (pyStripChars s.data)))))) ∧
    clean_json_response "```json\n\x7b\"a\":1\x7d\n``` trailing note" = "\x7b\"a\":1\x7d" ∧
    (∀ s : String, jsonLoads (clean_json_response s) = none →
      generate_task4_problem s = .error .jsonDecodeFailure) ∧
    (∀ (s : String) (data : Json), generate_task4_problem s = .ok data →
      pyMembership "lecture_script" data = .ok true ∧
        pyMembership "question" data = .ok true) := by
  refine ⟨fun s => rfl, rfl, ?_, ?_⟩
  · intro s h
    unfold generate_task4_problem
    rw [h]
  · intro s data h
    unfold generate_task4_problem at h
    split at h
    · exact absurd h (by simp)
    · rename_i d hj
      split at h
      · exact absurd h (by simp)
      · rename_i b1 hm1
        split at h
        · exact absurd h (by simp)
        · rename_i hb1
          split at h
          · exact absurd h (by simp)
          · rename_i b2 hm2
            split at h
            · exact absurd h (by simp)
            · rename_i hb2
              simp only [Except.ok.injEq] at h
              subst h
              have hb1' : b1 = true := by simpa using hb1
              have hb2' : b2 = true := by simpa using hb2
              subst hb1'
              subst hb2'
              exact ⟨hm1, hm2⟩

/-- C5 witness: a plain prose response with no JSON content fails to parse and
raises the generation-format error. -/
theorem claim_C5_witness :
    generate_task4_problem "no json here" = .error .jsonDecodeFailure :=
  claim_C5_sanitizer.2.2.1 "no json here" rfl

end RRG
